import Mathlib

/-!
# Verification of the searchConf search core

Shallow embedding of the search-related parts of `searchConf.py`
(`_search_worker`, `_file_contains_text`, `_iter_files`, `_poll_queue`,
`_on_search_clicked`, `_update_folder_history`) together with proofs of the
behavioural properties claimed for them.

Conventions used throughout:
* Python strings are Lean `String`s; character-level work happens on
  `String.data : List Char`.
* Python's `str.strip` / `str.lower` are modelled on the ASCII range, which
  covers every input appearing in the claims and theorems below.
* Fallible Python operations (opening a file, a matcher raising) are
  modelled with `Option` / `Except`.
* Bytes of a file are `Nat`s below 256.
-/

namespace SearchConf

/-! ## Small string helpers (Python `str` operations) -/

/-- Model of Python's ASCII whitespace set used by `str.strip`. -/
def pyIsSpace (c : Char) : Bool :=
  c = ' ' || c = '\t' || c = '\n' || c = '\r' || c = '\x0b' || c = '\x0c'

/-- Model of Python's `str.strip()` (ASCII whitespace). -/
def pyStrip (s : String) : String :=
  String.mk (((s.data.dropWhile pyIsSpace).reverse.dropWhile pyIsSpace).reverse)

/-- Model of Python's `str.lower` on one character (ASCII range). -/
def lowerChar (c : Char) : Char :=
  if 'A' ≤ c && c ≤ 'Z' then Char.ofNat (c.toNat + 32) else c

/-- Model of Python's `str.lower` (ASCII range), on a character list. -/
def lowerList (cs : List Char) : List Char :=
  cs.map lowerChar

/-- Boolean prefix test on character lists: `listStartsWith p s` holds when
`p` is a prefix of `s`. -/
def listStartsWith : List Char → List Char → Bool
  | [], _ => true
  | _ :: _, [] => false
  | a :: as, b :: bs => a = b && listStartsWith as bs

/-- Model of Python's `str.endswith`: `pyEndsWith s q` holds when `q` is a
suffix of `s`. -/
def pyEndsWith (s q : List Char) : Bool :=
  listStartsWith q.reverse s.reverse

/-- Model of Python's substring operator `q in s` on character lists. -/
def isSubstr : List Char → List Char → Bool
  | [], _ => true
  | _ :: _, [] => false
  | n :: ns, h :: hs => listStartsWith (n :: ns) (h :: hs) || isSubstr (n :: ns) hs

/-! ## Extension normalization (`_on_search_clicked` lines 385/393-395 and
`_search_worker` lines 473-474) -/

/-- Python `"*" in ext or "?" in ext` for the single-character wildcards
tested by `_search_worker`. -/
def extHasWildcard (s : String) : Bool :=
  s.data.contains '*' || s.data.contains '?'

/-- Python `ext.startswith(".")`. -/
def extStartsWithDot (s : String) : Bool :=
  listStartsWith ['.'] s.data

/-- Line 385 and 393-395 of `_on_search_clicked`: the extension entry is
stripped and an empty result falls back to the default `".conf"`. -/
def effectiveExt (raw : String) : String :=
  let e := pyStrip raw
  if e = "" then ".conf" else e

/-- Line 473 of `_search_worker`:
`ext if ext.startswith(".") or "*" in ext or "?" in ext else f".{ext}"`. -/
def normalizedExt (ext : String) : String :=
  if extStartsWithDot ext || extHasWildcard ext then ext else String.mk ('.' :: ext.data)

/-- Line 474 of `_search_worker`:
`f"*{normalized_ext}" if not any(ch in normalized_ext for ch in "*?") else normalized_ext`. -/
def searchPattern (ext : String) : String :=
  let n := normalizedExt ext
  if extHasWildcard n then n else String.mk ('*' :: n.data)

/-! ## Text decoding (Python `open(path, "r", encoding=enc, errors="replace")`)

`_file_contains_text` opens the file in text mode with
`errors="replace"`.  In CPython, `open` performs no decoding itself; decoding
happens lazily during line iteration and, with `errors="replace"`, an
ill-formed byte sequence is replaced by U+FFFD instead of raising.  The only
exceptions `open`/iteration can raise are I/O errors (missing file,
permission), which do not depend on the chosen codec.  The byte-level
decoders below model CPython's UTF-8 codec (strict and replacing forms) and
the latin-1 codec; the cp949 and euc-kr codec tables are external to this
repository, so functions that need them take them as parameters (the
theorems prove the observable behaviour is independent of them). -/

/-- Continuation byte test for UTF-8 (`0x80..0xBF`). -/
def isCont (b : Nat) : Bool :=
  0x80 ≤ b && b ≤ 0xBF

/-- Valid second byte for a three-byte UTF-8 lead `b` (excludes overlong
encodings and surrogates, as CPython's strict UTF-8 codec does). -/
def validSnd3 (b c1 : Nat) : Bool :=
  if b = 0xE0 then 0xA0 ≤ c1 && c1 ≤ 0xBF
  else if b = 0xED then 0x80 ≤ c1 && c1 ≤ 0x9F
  else isCont c1

/-- Valid second byte for a four-byte UTF-8 lead `b`. -/
def validSnd4 (b c1 : Nat) : Bool :=
  if b = 0xF0 then 0x90 ≤ c1 && c1 ≤ 0xBF
  else if b = 0xF4 then 0x80 ≤ c1 && c1 ≤ 0x8F
  else isCont c1

/-- Strict UTF-8 decoding, fuelled so that the kernel can evaluate it; the
wrapper `utf8DecodeStrict` supplies adequate fuel (every step consumes at
least one byte). Returns `none` exactly when the byte list is not valid
UTF-8. -/
def utf8StrictAux : Nat → List Nat → Option (List Char)
  | 0, [] => some []
  | 0, _ :: _ => none
  | _ + 1, [] => some []
  | f + 1, b :: rest =>
    if b < 0x80 then
      (utf8StrictAux f rest).map (fun cs => Char.ofNat b :: cs)
    else if 0xC2 ≤ b && b ≤ 0xDF then
      match rest with
      | c1 :: rest2 =>
        if isCont c1 then
          (utf8StrictAux f rest2).map
            (fun cs => Char.ofNat ((b - 0xC0) * 0x40 + (c1 - 0x80)) :: cs)
        else none
      | [] => none
    else if 0xE0 ≤ b && b ≤ 0xEF then
      match rest with
      | c1 :: c2 :: rest2 =>
        if validSnd3 b c1 && isCont c2 then
          (utf8StrictAux f rest2).map
            (fun cs =>
              Char.ofNat ((b - 0xE0) * 0x1000 + (c1 - 0x80) * 0x40 + (c2 - 0x80)) :: cs)
        else none
      | _ => none
    else if 0xF0 ≤ b && b ≤ 0xF4 then
      match rest with
      | c1 :: c2 :: c3 :: rest2 =>
        if validSnd4 b c1 && isCont c2 && isCont c3 then
          (utf8StrictAux f rest2).map
            (fun cs =>
              Char.ofNat ((b - 0xF0) * 0x40000 + (c1 - 0x80) * 0x1000
                + (c2 - 0x80) * 0x40 + (c3 - 0x80)) :: cs)
        else none
      | _ => none
    else none

/-- Strict UTF-8 decoding of a byte list. -/
def utf8DecodeStrict (bytes : List Nat) : Option (List Char) :=
  utf8StrictAux (bytes.length + 1) bytes

/-- The replacement character U+FFFD. -/
def replChar : Char := '�'

/-- UTF-8 decoding with `errors="replace"`: each maximal ill-formed subpart
is replaced by one U+FFFD, as CPython does. Fuelled like `utf8StrictAux`;
every step consumes at least one byte, so `bytes.length + 1` fuel is always
adequate. -/
def utf8ReplAux : Nat → List Nat → List Char
  | 0, _ => []
  | _ + 1, [] => []
  | f + 1, b :: rest =>
    if b < 0x80 then Char.ofNat b :: utf8ReplAux f rest
    else if 0xC2 ≤ b && b ≤ 0xDF then
      match rest with
      | c1 :: rest2 =>
        if isCont c1 then
          Char.ofNat ((b - 0xC0) * 0x40 + (c1 - 0x80)) :: utf8ReplAux f rest2
        else replChar :: utf8ReplAux f rest
      | [] => [replChar]
    else if 0xE0 ≤ b && b ≤ 0xEF then
      match rest with
      | c1 :: rest2 =>
        if validSnd3 b c1 then
          match rest2 with
          | c2 :: rest3 =>
            if isCont c2 then
              Char.ofNat ((b - 0xE0) * 0x1000 + (c1 - 0x80) * 0x40 + (c2 - 0x80))
                :: utf8ReplAux f rest3
            else replChar :: utf8ReplAux f rest2
          | [] => [replChar]
        else replChar :: utf8ReplAux f rest
      | [] => [replChar]
    else if 0xF0 ≤ b && b ≤ 0xF4 then
      match rest with
      | c1 :: rest2 =>
        if validSnd4 b c1 then
          match rest2 with
          | c2 :: rest3 =>
            if isCont c2 then
              match rest3 with
              | c3 :: rest4 =>
                if isCont c3 then
                  Char.ofNat ((b - 0xF0) * 0x40000 + (c1 - 0x80) * 0x1000
                    + (c2 - 0x80) * 0x40 + (c3 - 0x80)) :: utf8ReplAux f rest4
                else replChar :: utf8ReplAux f rest3
              | [] => [replChar]
            else replChar :: utf8ReplAux f rest2
          | [] => [replChar]
        else replChar :: utf8ReplAux f rest
      | [] => [replChar]
    else replChar :: utf8ReplAux f rest

/-- UTF-8 decoding with `errors="replace"` of a byte list. -/
def utf8DecodeReplace (bytes : List Nat) : List Char :=
  utf8ReplAux (bytes.length + 1) bytes

/-- The latin-1 codec: every byte decodes to the character with the same
code point, so strict and replacing decodes coincide and never fail. -/
def latin1Decode (bytes : List Nat) : List Char :=
  bytes.map Char.ofNat

/-! ## Text-mode line iteration (Python `for line in f`)

Python text mode uses universal newlines: `"\r\n"` and `"\r"` are translated
to `"\n"` before the stream is split into lines, and each yielded line keeps
its trailing `"\n"` (the last line may lack one). -/

/-- Universal-newline translation. -/
def unlTranslate : List Char → List Char
  | [] => []
  | '\r' :: '\n' :: rest => '\n' :: unlTranslate rest
  | '\r' :: rest => '\n' :: unlTranslate rest
  | c :: rest => c :: unlTranslate rest

/-- Split translated text into lines, each keeping its trailing newline. -/
def splitLinesAux : List Char → List Char → List (List Char)
  | acc, [] => if acc.isEmpty then [] else [acc.reverse]
  | acc, '\n' :: rest => (acc.reverse ++ ['\n']) :: splitLinesAux [] rest
  | acc, c :: rest => splitLinesAux (c :: acc) rest

/-- The lines Python's text-mode iteration yields for decoded text. -/
def pyTextLines (cs : List Char) : List String :=
  (splitLinesAux [] (unlTranslate cs)).map String.mk

/-! ## `_file_contains_text` (lines 742-760) -/

/-- The encodings tried by `_file_contains_text`, in order:
`["utf-8", "cp949", "euc-kr", "latin-1"]`. -/
inductive EncName where
  | utf8 | cp949 | euckr | latin1
deriving DecidableEq

/-- Line 744: `encodings = ["utf-8", "cp949", "euc-kr", "latin-1"]`. -/
def encodings : List EncName :=
  [EncName.utf8, EncName.cp949, EncName.euckr, EncName.latin1]

/-- Observable behaviour of one file towards `_file_contains_text`:
for each encoding, `open(path, "r", encoding=enc, errors="replace")` either
raises (`none`) or yields a sequence of lines (`some lines`). -/
structure PyFile where
  openLines : EncName → Option (List String)

/-- One line of the matching loop of `_file_contains_text`: case-sensitive
mode tests `query in line`; case-insensitive mode lowers the query and the
line first (lines 748-756). -/
def lineMatch (query : String) (caseSensitive : Bool) (line : String) : Bool :=
  if caseSensitive then isSubstr query.data line.data
  else isSubstr (lowerList query.data) (lowerList line.data)

/-- The whole matching loop over the lines yielded by a successful open:
`return True` on the first matching line, `return False` after the loop. -/
def matchLines (query : String) (caseSensitive : Bool) (lines : List String) : Bool :=
  lines.any (lineMatch query caseSensitive)

/-- The encoding loop of `_file_contains_text`: the first encoding whose
open succeeds determines the verdict (`return` inside the `try`); an open
that raises falls through to the next encoding (`except Exception:
continue`); when every encoding raises the function returns `False`. -/
def containsTextAux (f : PyFile) (query : String) (caseSensitive : Bool) :
    List EncName → Bool
  | [] => false
  | e :: rest =>
    match f.openLines e with
    | some lines => matchLines query caseSensitive lines
    | none => containsTextAux f query caseSensitive rest

/-- `_file_contains_text(path, query, case_sensitive)` (lines 742-760). -/
def file_contains_text (f : PyFile) (query : String) (caseSensitive : Bool) : Bool :=
  containsTextAux f query caseSensitive encodings

/-- The `PyFile` presented by a file whose on-disk bytes are `bytes`.
When the file is readable, `open(..., errors="replace")` succeeds for every
encoding (decoding never raises in replace mode) and yields the lines of the
replacing decode; when it is not (vanished, permission denied), `open`
raises for every encoding alike.  The cp949 and euc-kr replacing decoders
are parameters because their codec tables live outside this repository;
`file_contains_text_first_open_wins` proves the verdict never depends on
them. -/
def pyFileOfBytes (cp949Decode euckrDecode : List Nat → List Char)
    (readable : Bool) (bytes : List Nat) : PyFile :=
  ⟨fun e =>
    if readable then
      some (pyTextLines
        (match e with
         | EncName.utf8 => utf8DecodeReplace bytes
         | EncName.cp949 => cp949Decode bytes
         | EncName.euckr => euckrDecode bytes
         | EncName.latin1 => latin1Decode bytes))
    else none⟩

/-! ## `_search_worker` (lines 471-487)

The worker walks the candidate files produced by `_iter_files`, checks the
shared `stop_event` once per file, runs `_file_contains_text` inside a
`try`/`except` that swallows any exception, `put`s each matching path on the
result queue, and — in a `finally` block — always `put`s the sentinel string
`"__SEARCH_DONE__"` last.

The model below abstracts one run of the worker:
* a candidate file is a pair of its path and the outcome of the matching
  call — `Except.ok b` when `_file_contains_text` returned `b`,
  `Except.error ()` when it raised;
* the candidate list is whatever the traversal yielded before finishing or
  raising (an iterator that raises simply truncates the list: the `try` body
  stops there and the `finally` clause still runs);
* `cancel k` is the value `stop_event.is_set()` returns at the check made
  before processing the `k`-th candidate;
* the result is the exact sequence of strings `put` on the queue. -/

/-- A candidate file: its path and the outcome of matching it. -/
abbrev FileEntry : Type := String × Except Unit Bool

/-- The sentinel `"__SEARCH_DONE__"` enqueued by the worker's `finally`. -/
def searchDoneSentinel : String := "__SEARCH_DONE__"

/-- The `for path in files_iter` loop (lines 477-485): check the stop flag,
enqueue the path if the matcher returns `True`, skip it if the matcher
returns `False` or raises. -/
def workerLoop (cancel : Nat → Bool) : Nat → List FileEntry → List String
  | _, [] => []
  | k, (p, r) :: rest =>
    if cancel k then []
    else
      match r with
      | Except.ok true => p :: workerLoop cancel (k + 1) rest
      | Except.ok false => workerLoop cancel (k + 1) rest
      | Except.error _ => workerLoop cancel (k + 1) rest

/-- The full queue trace of `_search_worker`: the loop's paths followed by
the sentinel that the `finally` block enqueues unconditionally. -/
def search_worker (cancel : Nat → Bool) (files : List FileEntry) : List String :=
  workerLoop cancel 0 files ++ [searchDoneSentinel]

/-- The paths an uncancelled worker enqueues for a candidate list: exactly
the files whose matcher returned `True`, in traversal order. -/
def discovered : List FileEntry → List String
  | [] => []
  | (p, Except.ok true) :: rest => p :: discovered rest
  | (_, Except.ok false) :: rest => discovered rest
  | (_, Except.error _) :: rest => discovered rest

/-! ## Glob matching and the `_iter_files` name test (lines 727-740)

`_iter_files` admits a file name when
`fnmatch.fnmatch(name, pattern) or (pattern.startswith("*.") and
name.endswith(pattern[1:]))`.

`globAux` below models `fnmatch`'s pattern language under case-sensitive
semantics (the semantics claim C8 is explicitly stated under): `*` matches
any run of characters, `?` any single character, `[...]`/`[!...]` a
character class (with ranges, a leading `]` taken literally, and an
unterminated `[` matching a literal `[`), and every other character matches
itself.  The function is fuelled so the kernel can evaluate it; every step
consumes at least one pattern or subject character, so
`p.length + s.length + 1` fuel is always adequate. -/

/-- One item of a glob character class: a single character or a range. -/
inductive ClassItem where
  | single (c : Char)
  | range (lo hi : Char)
deriving DecidableEq

/-- Membership of a character in a class item. -/
def classItemMatch (c : Char) : ClassItem → Bool
  | ClassItem.single a => c = a
  | ClassItem.range lo hi => lo ≤ c && c ≤ hi

/-- Membership of a character in a (possibly negated) class. -/
def classMatch (neg : Bool) (items : List ClassItem) (c : Char) : Bool :=
  if neg then !(items.any (classItemMatch c)) else items.any (classItemMatch c)

/-- Scan the body of a character class up to its closing `]`.  Returns the
items and the pattern rest, or `none` when no closing `]` exists (in which
case `fnmatch` treats the `[` as a literal character). -/
def classScan : List Char → Option (List ClassItem × List Char)
  | [] => none
  | ']' :: rest => some ([], rest)
  | c :: '-' :: d :: rest =>
    if d = ']' then some ([ClassItem.single c, ClassItem.single '-'], rest)
    else (classScan rest).map (fun pr => (ClassItem.range c d :: pr.1, pr.2))
  | c :: rest => (classScan rest).map (fun pr => (ClassItem.single c :: pr.1, pr.2))

/-- Parse a character class directly after an opening `[`: an optional
leading `!` negates the class, and a `]` right after that is a literal
class member. -/
def parseCharClass (p : List Char) : Option (Bool × List ClassItem × List Char) :=
  match p with
  | '!' :: rest =>
    match rest with
    | ']' :: rest2 =>
      (classScan rest2).map (fun pr => (true, ClassItem.single ']' :: pr.1, pr.2))
    | _ => (classScan rest).map (fun pr => (true, pr.1, pr.2))
  | ']' :: rest2 =>
    (classScan rest2).map (fun pr => (false, ClassItem.single ']' :: pr.1, pr.2))
  | _ => (classScan p).map (fun pr => (false, pr.1, pr.2))

/-- Fuelled case-sensitive glob matcher: `globAux fuel p s` decides whether
pattern `p` matches the whole string `s`. -/
def globAux : Nat → List Char → List Char → Bool
  | 0, _, _ => false
  | f + 1, p, s =>
    match p with
    | [] => s.isEmpty
    | a :: p2 =>
      if a = '*' then
        globAux f p2 s
          || (match s with
              | [] => false
              | _ :: s2 => globAux f p s2)
      else if a = '?' then
        match s with
        | [] => false
        | _ :: s2 => globAux f p2 s2
      else if a = '[' then
        match parseCharClass p2 with
        | some (neg, items, p3) =>
          match s with
          | [] => false
          | c :: s2 => classMatch neg items c && globAux f p3 s2
        | none =>
          match s with
          | [] => false
          | c :: s2 => decide (a = c) && globAux f p2 s2
      else
        match s with
        | [] => false
        | c :: s2 => decide (a = c) && globAux f p2 s2

/-- Case-sensitive glob match of a whole name against a pattern. -/
def globMatch (p s : List Char) : Bool :=
  globAux (p.length + s.length + 1) p s

/-- The combined name test of `_iter_files` (lines 731 and 737):
`fnmatch.fnmatch(name, pattern) or (pattern.startswith("*.") and
name.endswith(pattern[1:]))`, under case-sensitive glob semantics. -/
def iter_files_name_test (pattern name : List Char) : Bool :=
  globMatch pattern name
    || (listStartsWith ['*', '.'] pattern && pyEndsWith name (pattern.drop 1))

/-! ## `_poll_queue` (lines 437-469)

One timer tick drains every item currently available on the result queue
(`get_nowait` until `queue.Empty`).  A normal item is appended to the
result list and sets the local flag `updated`; the sentinel re-enables the
search button, disables the stop button, composes the completion status from
the current result count, and resets the focus flag.  After the drain, if
`updated` was set the status is overwritten with the in-progress message.
Focus and selection calls are foreground-only side effects with no modelled
state beyond the `focusAfter` flag. -/

/-- The foreground state touched by `_poll_queue`. -/
structure PollState where
  results : List String
  searchEnabled : Bool
  stopEnabled : Bool
  status : String
  focusAfter : Bool
deriving DecidableEq

/-- The completion status composed in the sentinel branch (lines 446-449). -/
def doneStatus (results : List String) : String :=
  if results.length = 0 then "검색 완료: 일치하는 파일 없음."
  else "검색 완료: " ++ Nat.repr results.length ++ "개 파일"

/-- The in-progress status set after the drain when `updated` (line 467). -/
def progressStatus (results : List String) : String :=
  "진행 중... 현재 " ++ Nat.repr results.length ++ "개 발견"

/-- The drain loop of `_poll_queue` (lines 440-464): process the available
items in order, threading the `updated` flag. -/
def pollDrain : List String → PollState → Bool → PollState × Bool
  | [], st, updated => (st, updated)
  | item :: rest, st, updated =>
    if item = searchDoneSentinel then
      pollDrain rest
        { st with
          searchEnabled := true
          stopEnabled := false
          status := doneStatus st.results
          focusAfter := false }
        updated
    else
      pollDrain rest { st with results := st.results ++ [item] } true

/-- One tick of `_poll_queue`, given the items currently available on the
queue: drain them all, then overwrite the status with the in-progress
message when any normal item was seen (lines 466-467). -/
def poll_queue_tick (items : List String) (st : PollState) : PollState :=
  let (st2, updated) := pollDrain items st false
  if updated then { st2 with status := progressStatus st2.results } else st2

/-! ## `_on_search_clicked` (lines 378-418) and `_update_folder_history`
(lines 420-427)

The GUI state is reduced to the fields these two methods read or write.
Message boxes and the creation of the worker thread are externally visible
actions and are represented by the returned `ClickOutcome`; `searchAlive`
models `self.search_thread and self.search_thread.is_alive()`. -/

/-- The GUI/worker state touched by `_on_search_clicked`. -/
structure AppState where
  searchAlive : Bool
  stopEvent : Bool
  resultQueue : List String
  results : List String
  status : String
  searchEnabled : Bool
  stopEnabled : Bool
  focusAfter : Bool
  folderVar : String
  queryVar : String
  extVar : String
  recursiveVar : Bool
  caseSensitiveVar : Bool
  folderHistory : List String
  comboValues : List String
  settingsFolderHistory : List String
  settingsLastFolder : String
  settingsLastQuery : String
  settingsLastExtension : String
  settingsRecursive : Bool
  settingsCaseSensitive : Bool
deriving DecidableEq

/-- The externally visible outcome of one `_on_search_clicked` call. -/
inductive ClickOutcome where
  /-- Line 380: the busy notice `messagebox.showinfo`, no thread started. -/
  | rejectedBusy
  /-- Line 388: the invalid-folder error dialog. -/
  | invalidFolder
  /-- Line 391: the empty-query error dialog. -/
  | emptyQuery
  /-- Lines 413-418: a worker thread is started with these arguments. -/
  | started (folder query ext : String) (recursive caseSensitive : Bool)
deriving DecidableEq

/-- `_update_folder_history(folder)` (lines 420-427): move `folder` to the
front of the history (removing its first earlier occurrence, as
`list.remove` does), keep at most 15 entries, and mirror the list into the
combobox values and the `"folder_history"` settings entry. -/
def update_folder_history (st : AppState) (folder : String) : AppState :=
  let hist := (folder :: st.folderHistory.erase folder).take 15
  { st with
    folderHistory := hist
    comboValues := hist
    settingsFolderHistory := hist }

/-- `_on_search_clicked(from_query)` (lines 378-418).  `isDir` is the
filesystem oracle behind `os.path.isdir`. -/
def on_search_clicked (st : AppState) (isDir : String → Bool)
    (fromQuery : Bool) : AppState × ClickOutcome :=
  if st.searchAlive then (st, ClickOutcome.rejectedBusy)
  else
    let folder := pyStrip st.folderVar
    let query := st.queryVar
    let ext0 := pyStrip st.extVar
    if folder = "" || !isDir folder then (st, ClickOutcome.invalidFolder)
    else if query = "" then (st, ClickOutcome.emptyQuery)
    else
      let ext := if ext0 = "" then ".conf" else ext0
      let st1 := if ext0 = "" then { st with extVar := ".conf" } else st
      let st2 :=
        { st1 with
          focusAfter := fromQuery
          results := []
          status := "검색 중..."
          searchEnabled := false
          stopEnabled := true
          stopEvent := false }
      let st3 := update_folder_history st2 folder
      let st4 :=
        { st3 with
          settingsLastFolder := folder
          settingsLastQuery := query
          settingsLastExtension := ext
          settingsRecursive := st.recursiveVar
          settingsCaseSensitive := st.caseSensitiveVar
          searchAlive := true }
      (st4, ClickOutcome.started folder query ext st.recursiveVar st.caseSensitiveVar)

/-! ## Helper lemmas about the worker -/

/-- With the stop flag never set, the worker loop does not depend on the
index at which flag checks happen. -/
lemma workerLoop_const_false_shift (files : List FileEntry) :
    ∀ k k', workerLoop (fun _ => false) k files = workerLoop (fun _ => false) k' files := by
  induction files with
  | nil => intro k k'; rfl
  | cons f rest ih =>
    intro k k'
    obtain ⟨p, r⟩ := f
    simp only [workerLoop, Bool.false_eq_true, if_false]
    rcases r with e | b
    · exact ih (k + 1) (k' + 1)
    · cases b
      · exact ih (k + 1) (k' + 1)
      · rw [ih (k + 1) (k' + 1)]

/-- A candidate whose matcher raises contributes nothing to the worker
loop's output and does not stop the traversal. -/
lemma workerLoop_skip_error (p : String) (post : List FileEntry) :
    ∀ (pre : List FileEntry) (k : Nat),
      workerLoop (fun _ => false) k (pre ++ (p, Except.error ()) :: post)
        = workerLoop (fun _ => false) k (pre ++ post) := by
  intro pre
  induction pre with
  | nil =>
    intro k
    simp only [List.nil_append, workerLoop, Bool.false_eq_true, if_false]
    exact workerLoop_const_false_shift post (k + 1) k
  | cons f pre2 ih =>
    intro k
    obtain ⟨q, r⟩ := f
    simp only [List.cons_append, workerLoop, Bool.false_eq_true, if_false]
    rcases r with e | b
    · exact ih (k + 1)
    · cases b
      · exact ih (k + 1)
      · exact congrArg (List.cons q) (ih (k + 1))

/-- The paths the worker loop enqueues form an order-preserving subsequence
of the candidate paths. -/
lemma workerLoop_sublist (cancel : Nat → Bool) :
    ∀ (files : List FileEntry) (k : Nat),
      (workerLoop cancel k files).Sublist (files.map Prod.fst) := by
  intro files
  induction files with
  | nil => intro k; simp [workerLoop]
  | cons f rest ih =>
    intro k
    obtain ⟨p, r⟩ := f
    simp only [workerLoop, List.map_cons]
    by_cases hc : cancel k
    · simp [hc]
    · simp only [hc, Bool.false_eq_true, if_false]
      rcases r with e | b
      · exact (ih (k + 1)).cons p
      · cases b
        · exact (ih (k + 1)).cons p
        · exact (ih (k + 1)).cons₂ p

/-- `discovered` also forms a subsequence of the candidate paths. -/
lemma discovered_sublist :
    ∀ files : List FileEntry, (discovered files).Sublist (files.map Prod.fst) := by
  intro files
  induction files with
  | nil => simp [discovered]
  | cons f rest ih =>
    obtain ⟨p, r⟩ := f
    rcases r with e | b
    · exact (List.Sublist.cons p) ih
    · cases b
      · exact (List.Sublist.cons p) ih
      · exact (List.Sublist.cons₂ p) ih

/-- Appending the sentinel to a path list that does not contain it yields a
trace with exactly one sentinel. -/
lemma count_sentinel_one (ps : List String) (h : searchDoneSentinel ∉ ps) :
    (ps ++ [searchDoneSentinel]).count searchDoneSentinel = 1 := by
  rw [List.count_append]
  simp [List.count_eq_zero.mpr h]

/-- Until the first check at which the stop flag reads true, the worker loop
behaves exactly like an uncancelled worker on the corresponding prefix of
the candidate list. -/
lemma workerLoop_eq_discovered (cancel : Nat → Bool) :
    ∀ (files : List FileEntry) (k n : Nat),
      (∀ j, j < n → cancel (k + j) = false) →
      (n = files.length ∨ (n < files.length ∧ cancel (k + n) = true)) →
      workerLoop cancel k files = discovered (files.take n) := by
  intro files
  induction files with
  | nil =>
    intro k n hfalse hn
    rcases hn with hn | hn
    · subst hn; rfl
    · exact absurd hn.1 (Nat.not_lt_zero n)
  | cons f rest ih =>
    intro k n hfalse hn
    obtain ⟨p, r⟩ := f
    cases n with
    | zero =>
      rcases hn with hn | hn
      · exact absurd hn.symm (Nat.succ_ne_zero _)
      · simp only [workerLoop, List.take_zero, discovered]
        have : cancel k = true := by simpa using hn.2
        simp [this]
    | succ m =>
      have hk : cancel k = false := by simpa using hfalse 0 (Nat.succ_pos m)
      have hfalse2 : ∀ j, j < m → cancel (k + 1 + j) = false := by
        intro j hj
        have := hfalse (j + 1) (Nat.succ_lt_succ hj)
        simpa [Nat.add_assoc, Nat.add_comm 1 j] using this
      have hn2 : m = rest.length ∨ (m < rest.length ∧ cancel (k + 1 + m) = true) := by
        rcases hn with hn | hn
        · left; simpa using hn
        · right
          refine ⟨Nat.lt_of_succ_lt_succ (by simpa using hn.1), ?_⟩
          have := hn.2
          simpa [Nat.add_assoc, Nat.add_comm 1 m] using this
      simp only [workerLoop, hk, Bool.false_eq_true, if_false, List.take_succ_cons]
      rcases r with e | b
      · simpa [discovered] using ih (k + 1) m hfalse2 hn2
      · cases b
        · simpa [discovered] using ih (k + 1) m hfalse2 hn2
        · simpa [discovered] using ih (k + 1) m hfalse2 hn2

/-! ## Claim C1 — encoding fallback -/

/-- C1 counterexample: the one-byte file `[0xC0]` fails strict UTF-8
decoding and decodes under the later encoding latin-1 as `"À"`, yet
`_file_contains_text` reports no match for the query `"À"`: because every
open uses `errors="replace"`, the UTF-8 open of a readable file never
raises, so the verdict is computed from the UTF-8 replacement decode
(`U+FFFD`), not from the later encoding's decode.  (The cp949/euc-kr
decoder slots are instantiated with `latin1Decode`; by
`file_contains_text_first_open_wins` the verdict does not depend on them.) -/
theorem encoding_fallback_counterexample :
    utf8DecodeStrict [0xC0] = none
    ∧ matchLines "À" true (pyTextLines (latin1Decode [0xC0])) = true
    ∧ file_contains_text (pyFileOfBytes latin1Decode latin1Decode true [0xC0]) "À" true
        = false := by
  decide

/-- C1 amended: for every readable file the first encoding, UTF-8, opens
successfully (decoding cannot raise in replace mode) and is used
exclusively, so the content-match verdict is always computed from the UTF-8
replacement decoding — in particular it never depends on the cp949/euc-kr
codecs; when the file cannot be opened at all, every encoding's open raises
alike and the verdict is `False`. -/
theorem file_contains_text_first_open_wins
    (cp949Decode euckrDecode : List Nat → List Char) (bytes : List Nat)
    (query : String) (caseSensitive : Bool) :
    file_contains_text (pyFileOfBytes cp949Decode euckrDecode true bytes) query caseSensitive
        = matchLines query caseSensitive (pyTextLines (utf8DecodeReplace bytes))
    ∧ file_contains_text (pyFileOfBytes cp949Decode euckrDecode false bytes) query caseSensitive
        = false :=
  ⟨rfl, rfl⟩

/-! ## Claim C2 — worker queue protocol -/

/-- C2: for every run of the search worker — normal completion, a cancelled
traversal, or one truncated by an exception (all covered by quantifying over
the stop-flag schedule and the candidate list the traversal yielded) — the
queue trace consists of the discovered paths, an order-preserving
subsequence of the candidate paths, followed by the sentinel
`"__SEARCH_DONE__"`, which is the last message and occurs exactly once. -/
theorem search_worker_protocol (cancel : Nat → Bool) (files : List FileEntry)
    (hsent : searchDoneSentinel ∉ files.map Prod.fst) :
    ∃ ps : List String,
      search_worker cancel files = ps ++ [searchDoneSentinel]
      ∧ ps.Sublist (files.map Prod.fst)
      ∧ (search_worker cancel files).count searchDoneSentinel = 1
      ∧ (search_worker cancel files).getLast? = some searchDoneSentinel := by
  refine ⟨workerLoop cancel 0 files, rfl, workerLoop_sublist cancel files 0, ?_, ?_⟩
  · exact count_sentinel_one _
      (fun hmem => hsent ((workerLoop_sublist cancel files 0).mem hmem))
  · exact List.getLast?_concat _

/-- Closed witness for `search_worker_protocol`. -/
theorem search_worker_protocol_witness :
    (searchDoneSentinel ∉ ([("a", Except.ok true)] : List FileEntry).map Prod.fst)
    ∧ ∃ ps : List String,
        search_worker (fun _ => false) [("a", Except.ok true)] = ps ++ [searchDoneSentinel]
        ∧ ps.Sublist ((([("a", Except.ok true)] : List FileEntry)).map Prod.fst)
        ∧ (search_worker (fun _ => false) [("a", Except.ok true)]).count searchDoneSentinel = 1
        ∧ (search_worker (fun _ => false) [("a", Except.ok true)]).getLast?
            = some searchDoneSentinel :=
  ⟨by decide, search_worker_protocol (fun _ => false) [("a", Except.ok true)] (by decide)⟩

/-! ## Claim C3 — cancellation safety -/

/-- C3: if the stop flag reads true at some check, there is a bound `n` such
that every earlier check read false, the worker's trace equals the
uncancelled trace of the first `n` candidates followed by the sentinel (so
no path is enqueued after the flag is observed set, earlier results are not
retracted, and the flag is consulted once per processed candidate), and the
sentinel is still enqueued exactly once. -/
theorem search_worker_cancellation (cancel : Nat → Bool) (files : List FileEntry)
    (hsent : searchDoneSentinel ∉ files.map Prod.fst)
    (hset : ∃ N, cancel N = true) :
    ∃ n, n ≤ files.length
      ∧ (∀ k, k < n → cancel k = false)
      ∧ (n < files.length → cancel n = true)
      ∧ search_worker cancel files = discovered (files.take n) ++ [searchDoneSentinel]
      ∧ (search_worker cancel files).count searchDoneSentinel = 1 := by
  classical
  have hcount :
      ∀ n, search_worker cancel files = discovered (files.take n) ++ [searchDoneSentinel] →
        (search_worker cancel files).count searchDoneSentinel = 1 := by
    intro n heq
    rw [heq]
    refine count_sentinel_one _ (fun hmem => hsent ?_)
    have h1 := (discovered_sublist (files.take n)).mem hmem
    exact ((List.take_sublist n files).map Prod.fst).mem h1
  by_cases hN : Nat.find hset < files.length
  · have heq : search_worker cancel files
        = discovered (files.take (Nat.find hset)) ++ [searchDoneSentinel] := by
      unfold search_worker
      rw [workerLoop_eq_discovered cancel files 0 (Nat.find hset)
        (fun j hj => by simpa using Bool.not_eq_true _ ▸ (Nat.find_min hset hj))
        (Or.inr ⟨hN, by simpa using Nat.find_spec hset⟩)]
    refine ⟨Nat.find hset, Nat.le_of_lt hN, ?_, fun _ => Nat.find_spec hset, heq, hcount _ heq⟩
    intro k hk
    have := Nat.find_min hset hk
    simpa using this
  · push_neg at hN
    have heq : search_worker cancel files
        = discovered (files.take files.length) ++ [searchDoneSentinel] := by
      unfold search_worker
      rw [workerLoop_eq_discovered cancel files 0 files.length
        (fun j hj => by simpa using Nat.find_min hset (Nat.lt_of_lt_of_le hj hN))
        (Or.inl rfl)]
    refine ⟨files.length, Nat.le_refl _, ?_, fun h => absurd h (Nat.lt_irrefl _), heq, hcount _ heq⟩
    intro k hk
    have := Nat.find_min hset (Nat.lt_of_lt_of_le hk hN)
    simpa using this

/-- Closed witness for `search_worker_cancellation`. -/
theorem search_worker_cancellation_witness :
    (searchDoneSentinel ∉ ([("a", Except.ok true), ("b", Except.ok true)] : List FileEntry).map Prod.fst)
    ∧ (∃ N, (fun k => decide (1 ≤ k)) N = true)
    ∧ ∃ n, n ≤ ([("a", Except.ok true), ("b", Except.ok true)] : List FileEntry).length
        ∧ (∀ k, k < n → (fun k => decide (1 ≤ k)) k = false)
        ∧ (n < ([("a", Except.ok true), ("b", Except.ok true)] : List FileEntry).length →
            (fun k => decide (1 ≤ k)) n = true)
        ∧ search_worker (fun k => decide (1 ≤ k)) [("a", Except.ok true), ("b", Except.ok true)]
            = discovered (([("a", Except.ok true), ("b", Except.ok true)] : List FileEntry).take n)
              ++ [searchDoneSentinel]
        ∧ (search_worker (fun k => decide (1 ≤ k))
            [("a", Except.ok true), ("b", Except.ok true)]).count searchDoneSentinel = 1 :=
  ⟨by decide, ⟨1, by decide⟩,
    search_worker_cancellation (fun k => decide (1 ≤ k))
      [("a", Except.ok true), ("b", Except.ok true)] (by decide) ⟨1, by decide⟩⟩

/-! ## Claim C4 — extension normalization -/

/-- C4: `"conf"` and `".conf"` normalize to the glob `"*.conf"`; a string
already containing a wildcard, such as `"*.txt"`, is used verbatim; and an
empty or whitespace-only extension falls back to the default `".conf"`
before normalization. -/
theorem extension_normalization :
    searchPattern (effectiveExt "conf") = "*.conf"
    ∧ searchPattern (effectiveExt ".conf") = "*.conf"
    ∧ searchPattern (effectiveExt "*.txt") = "*.txt"
    ∧ (∀ s : String, pyStrip s = "" → searchPattern (effectiveExt s) = "*.conf")
    ∧ (∀ s : String, extHasWildcard (pyStrip s) = true →
        searchPattern (effectiveExt s) = pyStrip s) := by
  refine ⟨by decide, by decide, by decide, ?_, ?_⟩
  · intro s h
    simp only [effectiveExt, h, if_pos rfl]
    decide
  · intro s h
    have hne : pyStrip s ≠ "" := by
      intro h0
      rw [h0] at h
      exact absurd h (by decide)
    simp only [effectiveExt, if_neg hne, searchPattern, normalizedExt, h, Bool.or_true, if_pos,
      if_true]

/-- Closed witness for `extension_normalization`. -/
theorem extension_normalization_witness :
    (pyStrip "  " = "" ∧ searchPattern (effectiveExt "  ") = "*.conf")
    ∧ (extHasWildcard (pyStrip " *.txt ") = true
        ∧ searchPattern (effectiveExt " *.txt ") = pyStrip " *.txt ") :=
  ⟨⟨by decide, extension_normalization.2.2.2.1 "  " (by decide)⟩,
    ⟨by decide, extension_normalization.2.2.2.2 " *.txt " (by decide)⟩⟩

/-! ## Claim C5 — the tick that drains results and the sentinel together -/

/-- C5 (code-bug evidence): a tick that drains one normal path and then the
sentinel does re-enable the search button and disable the stop button, but
leaves the status line at the in-progress message, not the completion
summary: the sentinel branch composes `doneStatus`, and the post-drain
`if updated` overwrite (line 467) then replaces it with `progressStatus`. -/
theorem poll_tick_drain_then_sentinel :
    poll_queue_tick ["C:/a.conf", searchDoneSentinel]
        ⟨[], false, true, "검색 중...", false⟩
      = ⟨["C:/a.conf"], true, false, progressStatus ["C:/a.conf"], false⟩
    ∧ progressStatus ["C:/a.conf"] ≠ doneStatus ["C:/a.conf"] := by
  decide

/-! ## Claim C6 — case sensitivity -/

/-- The ASCII bytes of the line `"Config"`; every codec in the list decodes
them identically (latin-1 stands in for the cp949/euc-kr slots, with which
it agrees on ASCII — and they are never consulted anyway). -/
def configFileBytes : List Nat := [0x43, 0x6F, 0x6E, 0x66, 0x69, 0x67]

/-- C6: a file containing the line `"Config"` matches the query `"config"`
exactly when case-sensitive mode is off and matches `"Config"` in both
modes; in case-insensitive mode the match test is substring containment of
the lowered query in the lowered line. -/
theorem case_sensitivity_matching :
    file_contains_text (pyFileOfBytes latin1Decode latin1Decode true configFileBytes)
        "config" false = true
    ∧ file_contains_text (pyFileOfBytes latin1Decode latin1Decode true configFileBytes)
        "config" true = false
    ∧ file_contains_text (pyFileOfBytes latin1Decode latin1Decode true configFileBytes)
        "Config" false = true
    ∧ file_contains_text (pyFileOfBytes latin1Decode latin1Decode true configFileBytes)
        "Config" true = true
    ∧ ∀ query line : String,
        lineMatch query false line = isSubstr (lowerList query.data) (lowerList line.data) :=
  ⟨by decide, by decide, by decide, by decide, fun query line => rfl⟩

/-! ## Claim C7 — per-file errors are swallowed -/

/-- C7: a file for which every encoding's open raises yields verdict
`False` from `_file_contains_text` rather than an exception, and a
candidate whose matcher raises is skipped by the worker — no message is
emitted for it and the rest of the traversal (and its sentinel) is exactly
as if the candidate were absent. -/
theorem per_file_errors_skipped :
    (∀ f : PyFile, (∀ e, f.openLines e = none) →
      ∀ (query : String) (caseSensitive : Bool), file_contains_text f query caseSensitive = false)
    ∧ ∀ (pre post : List FileEntry) (p : String),
        search_worker (fun _ => false) (pre ++ (p, Except.error ()) :: post)
          = search_worker (fun _ => false) (pre ++ post) := by
  constructor
  · intro f h query caseSensitive
    simp [file_contains_text, encodings, containsTextAux, h]
  · intro pre post p
    unfold search_worker
    rw [workerLoop_skip_error]

/-- Closed witness for `per_file_errors_skipped`. -/
theorem per_file_errors_skipped_witness :
    (∀ e, PyFile.openLines ⟨fun _ => none⟩ e = none)
    ∧ file_contains_text ⟨fun _ => none⟩ "x" true = false :=
  ⟨fun _ => rfl, per_file_errors_skipped.1 ⟨fun _ => none⟩ (fun _ => rfl) "x" true⟩

/-! ## Claim C9 — a second search is rejected while one runs -/

/-- C9: when the worker thread is still alive, `_on_search_clicked` shows
the busy notice and returns immediately: the GUI/worker state — queue, stop
flag, result list, history, settings — is returned unchanged and no worker
thread is started. -/
theorem busy_search_rejected (st : AppState) (isDir : String → Bool) (fromQuery : Bool)
    (halive : st.searchAlive = true) :
    on_search_clicked st isDir fromQuery = (st, ClickOutcome.rejectedBusy) := by
  simp [on_search_clicked, halive]

/-- A state whose worker thread is alive, for the witness below. -/
def busyState : AppState :=
  { searchAlive := true, stopEvent := false, resultQueue := [], results := []
    status := "검색 중...", searchEnabled := false, stopEnabled := true, focusAfter := false
    folderVar := "C:/conf", queryVar := "port", extVar := ".conf"
    recursiveVar := true, caseSensitiveVar := false
    folderHistory := ["C:/conf"], comboValues := ["C:/conf"]
    settingsFolderHistory := ["C:/conf"], settingsLastFolder := "C:/conf"
    settingsLastQuery := "port", settingsLastExtension := ".conf"
    settingsRecursive := true, settingsCaseSensitive := false }

/-- Closed witness for `busy_search_rejected`. -/
theorem busy_search_rejected_witness :
    busyState.searchAlive = true
    ∧ on_search_clicked busyState (fun _ => true) false = (busyState, ClickOutcome.rejectedBusy) :=
  ⟨rfl, busy_search_rejected busyState (fun _ => true) false rfl⟩

/-! ## Claim C10 — folder-history update invariants -/

/-- C10: after `_update_folder_history folder`, the history has `folder`
first, stays duplicate-free when it was duplicate-free before, never
exceeds 15 entries, and is mirrored verbatim into the combobox values and
the `"folder_history"` settings entry. -/
theorem update_folder_history_spec (st : AppState) (folder : String) :
    (update_folder_history st folder).folderHistory.head? = some folder
    ∧ (st.folderHistory.Nodup → (update_folder_history st folder).folderHistory.Nodup)
    ∧ (update_folder_history st folder).folderHistory.length ≤ 15
    ∧ (update_folder_history st folder).comboValues
        = (update_folder_history st folder).folderHistory
    ∧ (update_folder_history st folder).settingsFolderHistory
        = (update_folder_history st folder).folderHistory := by
  refine ⟨rfl, ?_, ?_, rfl, rfl⟩
  · intro hnodup
    refine (List.take_sublist 15 _).nodup ?_
    refine List.nodup_cons.mpr ⟨?_, hnodup.erase folder⟩
    intro hmem
    exact absurd ((hnodup.mem_erase_iff).mp hmem).1 (by simp)
  · exact List.length_take_le 15 _

/-- Nonempty history for the witness below. -/
def histState : AppState :=
  { busyState with searchAlive := false, folderHistory := ["a", "b"] }

/-- Closed witness for `update_folder_history_spec`. -/
theorem update_folder_history_spec_witness :
    histState.folderHistory.Nodup
    ∧ (update_folder_history histState "b").folderHistory.head? = some "b"
    ∧ (update_folder_history histState "b").folderHistory.Nodup :=
  ⟨by decide, (update_folder_history_spec histState "b").1,
    (update_folder_history_spec histState "b").2.1 (by decide)⟩

/-! ## Claim C8 — suffix branch versus glob branch in `_iter_files` -/

/-- `listStartsWith` decides the prefix relation. -/
lemma listStartsWith_iff : ∀ (p s : List Char), listStartsWith p s = true ↔ p <+: s := by
  intro p
  induction p with
  | nil => intro s; simp [listStartsWith]
  | cons a p2 ih =>
    intro s
    cases s with
    | nil => simp [listStartsWith]
    | cons b s2 => simp [listStartsWith, ih s2, List.cons_prefix_cons]

/-- `pyEndsWith` decides the suffix relation. -/
lemma pyEndsWith_iff (s q : List Char) : pyEndsWith s q = true ↔ q <:+ s := by
  rw [pyEndsWith, listStartsWith_iff]
  exact List.reverse_prefix

/-- A pattern free of every glob metacharacter matches exactly itself. -/
lemma globAux_literal :
    ∀ (p : List Char), '*' ∉ p → '?' ∉ p → '[' ∉ p →
      ∀ (s : List Char) (f : Nat), p.length + s.length < f →
        (globAux f p s = true ↔ s = p) := by
  intro p
  induction p with
  | nil =>
    intro _ _ _ s f hf
    cases f with
    | zero => omega
    | succ f1 => simp [globAux, List.isEmpty_iff]
  | cons a p2 ih =>
    intro hstar hqm hbr s f hf
    have ha1 : ¬(a = '*') := fun h => hstar (by simp [h])
    have ha2 : ¬(a = '?') := fun h => hqm (by simp [h])
    have ha3 : ¬(a = '[') := fun h => hbr (by simp [h])
    have hstar2 : '*' ∉ p2 := fun h => hstar (List.mem_cons_of_mem _ h)
    have hqm2 : '?' ∉ p2 := fun h => hqm (List.mem_cons_of_mem _ h)
    have hbr2 : '[' ∉ p2 := fun h => hbr (List.mem_cons_of_mem _ h)
    cases f with
    | zero => omega
    | succ f1 =>
      simp only [globAux, if_neg ha1, if_neg ha2, if_neg ha3]
      cases s with
      | nil => simp
      | cons c s2 =>
        have hrec := ih hstar2 hqm2 hbr2 s2 f1 (by simp at hf ⊢; omega)
        simp only [Bool.and_eq_true, decide_eq_true_eq, hrec, List.cons.injEq]
        constructor
        · rintro ⟨h1, h2⟩; exact ⟨h1.symm, h2⟩
        · rintro ⟨h1, h2⟩; exact ⟨h1.symm, h2⟩

/-- A star followed by a metacharacter-free pattern matches exactly the
strings having that pattern as a suffix. -/
lemma globAux_star_literal (q : List Char) (hstar : '*' ∉ q) (hqm : '?' ∉ q) (hbr : '[' ∉ q) :
    ∀ (s : List Char) (f : Nat), q.length + s.length + 1 < f →
      (globAux f ('*' :: q) s = true ↔ q <:+ s) := by
  intro s
  induction s with
  | nil =>
    intro f hf
    cases f with
    | zero => omega
    | succ f1 =>
      simp only [globAux, eq_self_iff_true, if_true, Bool.or_false]
      rw [globAux_literal q hstar hqm hbr [] f1 (by simp at hf ⊢; omega)]
      simp [List.suffix_nil, eq_comm]
  | cons c s2 ih =>
    intro f hf
    cases f with
    | zero => omega
    | succ f1 =>
      simp only [globAux, eq_self_iff_true, if_true, Bool.or_eq_true]
      rw [globAux_literal q hstar hqm hbr (c :: s2) f1 (by simp at hf ⊢; omega)]
      rw [ih f1 (by simp at hf ⊢; omega)]
      rw [List.suffix_cons_iff]
      constructor
      · rintro (h | h)
        · exact Or.inl h.symm
        · exact Or.inr h
      · rintro (h | h)
        · exact Or.inl h.symm
        · exact Or.inr h

/-- C8 counterexample: with the extension `"c[o]nf"` — which contains
neither `"*"` nor `"?"`, the wildcards the claim excludes — the combined
test of `_iter_files` accepts the name `"a.c[o]nf"` through the suffix
branch, while the case-sensitive glob match alone rejects it (`fnmatch`
reads `[o]` as a character class matching only `"o"`).  The suffix branch
therefore admits a name the glob match does not. -/
theorem iter_files_suffix_branch_not_redundant :
    ('*' ∉ "c[o]nf".data) ∧ ('?' ∉ "c[o]nf".data)
    ∧ iter_files_name_test "*.c[o]nf".data "a.c[o]nf".data = true
    ∧ globMatch "*.c[o]nf".data "a.c[o]nf".data = false := by
  decide

/-- C8 amended: for suffixes free of every glob metacharacter (`*`, `?`,
and also `[`, which introduces a character class), the combined test of
`_iter_files` coincides with the glob match alone — there the suffix branch
is indeed redundant under case-sensitive glob semantics. -/
theorem iter_files_suffix_branch_redundant_for_literal (ext name : List Char)
    (hstar : '*' ∉ ext) (hqm : '?' ∉ ext) (hbr : '[' ∉ ext) :
    iter_files_name_test ('*' :: '.' :: ext) name = globMatch ('*' :: '.' :: ext) name := by
  have hstar2 : '*' ∉ '.' :: ext := by simp [hstar]
  have hqm2 : '?' ∉ '.' :: ext := by simp [hqm]
  have hbr2 : '[' ∉ '.' :: ext := by simp [hbr]
  have hg : globMatch ('*' :: '.' :: ext) name = true ↔ ('.' :: ext) <:+ name := by
    unfold globMatch
    exact globAux_star_literal ('.' :: ext) hstar2 hqm2 hbr2 name _
      (by simp only [List.length_cons]; omega)
  have he : pyEndsWith name (('*' :: '.' :: ext).drop 1) = true ↔ ('.' :: ext) <:+ name := by
    simpa using pyEndsWith_iff name ('.' :: ext)
  have hsw : listStartsWith ['*', '.'] ('*' :: '.' :: ext) = true := by simp [listStartsWith]
  unfold iter_files_name_test
  rw [hsw, Bool.true_and]
  rw [Bool.eq_iff_iff.mpr (he.trans hg.symm), Bool.or_self]

/-- Closed witness for `iter_files_suffix_branch_redundant_for_literal`. -/
theorem iter_files_suffix_branch_redundant_witness :
    ('*' ∉ "conf".data) ∧ ('?' ∉ "conf".data) ∧ ('[' ∉ "conf".data)
    ∧ iter_files_name_test ('*' :: '.' :: "conf".data) "a.conf".data
        = globMatch ('*' :: '.' :: "conf".data) "a.conf".data :=
  ⟨by decide, by decide, by decide,
    iter_files_suffix_branch_redundant_for_literal "conf".data "a.conf".data
      (by decide) (by decide) (by decide)⟩

end SearchConf
